import Mathlib

/-!
Verification development for the WinHKMon system-metrics sampler.

The C++ sources are shallowly embedded:
* unsigned 64-bit integers (`uint64_t`) are modelled as `Nat`; where overflow
  or wraparound matters it is made explicit with `% 2^64`;
* `double` values are modelled as `ℚ` with exact arithmetic (the embedded
  divisions are the mathematical ones the source computes);
* `std::string` values are modelled as `List Char`;
* fallible operations return `Option` or `Except`;
* file-system state is passed explicitly (a file is an optional list of lines).
-/

namespace WinHKMonProof

/-! ## DeltaCalculator (src/WinHKMonLib/DeltaCalculator.cpp)

`calculateRate` and `calculateElapsedSeconds` are pure functions over
`uint64_t` counters and `double` seconds. -/

/-- Embeds `DeltaCalculator::calculateRate` (DeltaCalculator.cpp, lines 7-25).
Counters are `uint64_t` (here `Nat`); `elapsedSeconds` and the result are
`double` (here `ℚ`).  The branch structure mirrors the source: zero elapsed
time and `current < previous` both yield `0`, otherwise the unsigned delta is
divided by the elapsed time. -/
def calculateRate (current previous : Nat) (elapsedSeconds : ℚ) : ℚ :=
  if elapsedSeconds ≤ 0 then 0
  else if current < previous then 0
  else ((current - previous : Nat) : ℚ) / elapsedSeconds

/-- Embeds `DeltaCalculator::calculateElapsedSeconds` (DeltaCalculator.cpp,
lines 27-45).  Tick values and the frequency are `uint64_t`; the result is a
`double` quotient of the unsigned tick delta by the frequency. -/
def calculateElapsedSeconds (currentTimestamp previousTimestamp frequency : Nat) : ℚ :=
  if currentTimestamp < previousTimestamp then 0
  else if frequency = 0 then 0
  else ((currentTimestamp - previousTimestamp : Nat) : ℚ) / (frequency : ℚ)

/-- C1: `DeltaCalculator::calculateRate` is defined piecewise: it returns 0
when `elapsedSeconds ≤ 0`; it returns 0 when `current < previous`; otherwise
it returns exactly `(current - previous) / elapsedSeconds`; and in every case
the returned value is nonnegative (never negative or undefined). -/
theorem calculateRate_piecewise_nonneg (c p : Nat) (e : ℚ) :
    (e ≤ 0 → calculateRate c p e = 0) ∧
    (c < p → calculateRate c p e = 0) ∧
    (p ≤ c → 0 < e → calculateRate c p e = ((c : ℚ) - (p : ℚ)) / e) ∧
    0 ≤ calculateRate c p e := by
  unfold calculateRate
  refine ⟨fun h => by simp [h], fun h => ?_, fun hpc he => ?_, ?_⟩
  · by_cases he : e ≤ 0 <;> simp [he, h]
  · have he' : ¬ e ≤ 0 := not_le.mpr he
    have hlt : ¬ c < p := not_lt.mpr hpc
    simp only [he', if_false, hlt]
    rw [Nat.cast_sub hpc]
  · by_cases he : e ≤ 0
    · simp [he]
    · by_cases hlt : c < p
      · simp [he, hlt]
      · simp only [he, if_false, hlt]
        have h0 : (0 : ℚ) ≤ ((c - p : Nat) : ℚ) := Nat.cast_nonneg _
        have h1 : (0 : ℚ) < e := lt_of_not_le he
        exact div_nonneg h0 (le_of_lt h1)

/-- Witness for C1: the theorem applied at Scenario A of the spec,
`rate(10_000_000, 0, 1.0) = 10_000_000`, with both hypotheses discharged. -/
theorem calculateRate_piecewise_nonneg_witness :
    calculateRate 10000000 0 1 = ((10000000 : ℚ) - (0 : ℚ)) / 1 :=
  (calculateRate_piecewise_nonneg 10000000 0 1).2.2.1 (by norm_num) (by norm_num)

/-- C2: `DeltaCalculator::calculateElapsedSeconds` returns 0 when
`currentTick < previousTick` or when `frequency = 0`, and otherwise returns
the exact quotient `(currentTick - previousTick) / frequency`; in particular
`elapsedSeconds(5_000_000, 0, 10_000_000) = 0.5`. -/
theorem calculateElapsedSeconds_piecewise :
    (∀ ct pt f : Nat,
      (ct < pt → calculateElapsedSeconds ct pt f = 0) ∧
      (f = 0 → calculateElapsedSeconds ct pt f = 0) ∧
      (pt ≤ ct → f ≠ 0 →
        calculateElapsedSeconds ct pt f = ((ct : ℚ) - (pt : ℚ)) / (f : ℚ))) ∧
    calculateElapsedSeconds 5000000 0 10000000 = 1 / 2 := by
  constructor
  · intro ct pt f
    unfold calculateElapsedSeconds
    refine ⟨fun h => by simp [h], fun h => ?_, fun hpc hf => ?_⟩
    · by_cases hlt : ct < pt <;> simp [hlt, h]
    · have hlt : ¬ ct < pt := not_lt.mpr hpc
      simp only [hlt, if_false]
      rw [if_neg hf, Nat.cast_sub hpc]
  · unfold calculateElapsedSeconds
    norm_num

/-- Witness for C2: the theorem's universally quantified part applied at
concrete inputs, discharging each hypothesis (clock rollback, zero frequency,
and the exact-quotient case), together with Scenario C. -/
theorem calculateElapsedSeconds_piecewise_witness :
    calculateElapsedSeconds 3 7 5 = 0 ∧
    calculateElapsedSeconds 7 3 0 = 0 ∧
    calculateElapsedSeconds 7 3 2 = ((7 : ℚ) - (3 : ℚ)) / (2 : ℚ) ∧
    calculateElapsedSeconds 5000000 0 10000000 = 1 / 2 :=
  ⟨(calculateElapsedSeconds_piecewise.1 3 7 5).1 (by norm_num),
   (calculateElapsedSeconds_piecewise.1 7 3 0).2.1 rfl,
   (calculateElapsedSeconds_piecewise.1 7 3 2).2.2 (by norm_num) (by norm_num),
   calculateElapsedSeconds_piecewise.2⟩

/-! ## Strings and C parsing primitives

`std::string` is modelled as `List Char`.  The primitives below embed the C
and C++ standard-library behaviour that `StateManager::load` relies on:
`isspace`, `std::stoull` (via `strtoull`) and `istream` extraction of a
string token and of an unsigned 64-bit integer. -/

/-- A C++ string, modelled as its character list. -/
abbrev Str := List Char

/-- Character list of a Lean string literal. -/
def str (s : String) : Str := s.data

/-- The characters `isspace` recognises in the C locale: space, tab, LF, CR,
vertical tab and form feed.  Both `strtoull` and formatted `istream`
extraction skip exactly these. -/
def isSpaceChar (c : Char) : Bool :=
  c = ' ' || c = '\t' || c = '\n' || c = '\r' || c = '\x0b' || c = '\x0c'

/-- Decimal digit test (`c >= '0' && c <= '9'`). -/
def isDigitChar (c : Char) : Bool :=
  '0' ≤ c && c ≤ '9'

/-- Scan a maximal run of decimal digits, accumulating the value (`acc`) and
the number of digits consumed (`nd`); returns both when the first non-digit
(or the end) is reached. -/
def scanDigits : Nat → Nat → Str → Nat × Nat
  | acc, nd, [] => (acc, nd)
  | acc, nd, c :: cs =>
    if isDigitChar c then scanDigits (acc * 10 + (c.toNat - 48)) (nd + 1) cs
    else (acc, nd)

/-- Digit-run part of `strtoull`: fails when no digit is present or when the
value exceeds the `unsigned long long` range; a leading minus sign negates
the value modulo `2^64` (the C wraparound rule). -/
def parseULLDigits (s : Str) (neg : Bool) : Option Nat :=
  if (scanDigits 0 0 s).2 = 0 then none
  else if 2 ^ 64 ≤ (scanDigits 0 0 s).1 then none
  else some (if neg then (2 ^ 64 - (scanDigits 0 0 s).1) % 2 ^ 64
             else (scanDigits 0 0 s).1)

/-- Embeds both `std::stoull(s)` (base 10) and `istream >> uint64_t` applied
to the text `s`: skip C-locale whitespace, accept an optional sign, then a
maximal run of decimal digits.  `none` models `std::invalid_argument` /
`std::out_of_range` (for `stoull`) and the stream fail state (for `>>`);
both call sites in `StateManager::load` treat those outcomes alike.
Trailing characters after the digits are ignored by both. -/
def parseULL (s : Str) : Option Nat :=
  match s.dropWhile isSpaceChar with
  | [] => none
  | c :: rest =>
    if c = '-' then parseULLDigits rest true
    else if c = '+' then parseULLDigits rest false
    else parseULLDigits (c :: rest) false

/-- Embeds `istream >> std::string`: skip whitespace, then take a maximal
nonempty run of non-whitespace characters; fails at end of input.  Returns
the token and the unread remainder of the line. -/
def extractTokenGo (s1 : Str) : Option (Str × Str) :=
  if (s1.takeWhile (fun c => !isSpaceChar c)).isEmpty then none
  else some (s1.takeWhile (fun c => !isSpaceChar c),
             s1.drop (s1.takeWhile (fun c => !isSpaceChar c)).length)

def extractToken (s : Str) : Option (Str × Str) :=
  extractTokenGo (s.dropWhile isSpaceChar)

/-- Index of the last occurrence of a character satisfying `p` (the loop of
`std::string::rfind`), accumulator form. -/
def rfindIdxAux (p : Char → Bool) : Str → Nat → Option Nat → Option Nat
  | [], _, best => best
  | c :: cs, i, best => rfindIdxAux p cs (i + 1) (if p c then some i else best)

/-- Embeds `key.rfind(ch)`: index of the last occurrence, `none` for `npos`. -/
def rfindIdx (p : Char → Bool) (s : Str) : Option Nat :=
  rfindIdxAux p s 0 none

/-- Decimal printing of a `uint64_t` by `operator<<`; `fuel` bounds the
recursion (it starts at `n + 1`, far above the number of digits). -/
def natToStrGo : Nat → Nat → Str
  | 0, _ => []
  | fuel + 1, n =>
    if n < 10 then [Nat.digitChar n]
    else natToStrGo fuel (n / 10) ++ [Nat.digitChar (n % 10)]

/-- Decimal representation of `n`, as written by `file << n` for `uint64_t`. -/
def natToStr (n : Nat) : Str := natToStrGo (n + 1) n

/-! ## Data model (include/WinHKMonLib/Types.h)

The structures mirror `Types.h`; `double` fields are `ℚ`, `uint64_t` fields
are `Nat`, `std::optional` fields are `Option`. -/

/-- Embeds `CoreStats` (Types.h, lines 22-26). -/
structure CoreStats where
  coreId : Nat
  usagePercent : ℚ
  frequencyMhz : Nat
deriving Repr, DecidableEq

/-- Embeds `CpuStats` (Types.h, lines 31-40). -/
structure CpuStats where
  totalUsagePercent : ℚ
  cores : List CoreStats
  averageFrequencyMhz : Nat
  userPercent : Option ℚ := none
  systemPercent : Option ℚ := none
  idlePercent : Option ℚ := none
deriving Repr, DecidableEq

/-- Embeds `MemoryStats` (Types.h, lines 45-59). -/
structure MemoryStats where
  totalPhysicalBytes : Nat
  availablePhysicalBytes : Nat
  usedPhysicalBytes : Nat
  usagePercent : ℚ
  totalPageFileBytes : Nat
  availablePageFileBytes : Nat
  usedPageFileBytes : Nat
  pageFilePercent : ℚ
  cachedBytes : Option Nat := none
  committedBytes : Option Nat := none
deriving Repr, DecidableEq

/-- Embeds `DiskStats` (Types.h, lines 64-84). -/
structure DiskStats where
  deviceName : Str
  totalSizeBytes : Nat := 0
  usedBytes : Nat := 0
  freeBytes : Nat := 0
  bytesReadPerSec : Nat := 0
  bytesWrittenPerSec : Nat := 0
  percentBusy : ℚ := 0
  totalBytesRead : Nat := 0
  totalBytesWritten : Nat := 0
  readsPerSec : Option Nat := none
  writesPerSec : Option Nat := none
deriving Repr, DecidableEq

/-- Embeds `InterfaceStats` (Types.h, lines 89-110). -/
structure InterfaceStats where
  name : Str
  description : Str := []
  isConnected : Bool := false
  linkSpeedBitsPerSec : Nat := 0
  inBytesPerSec : Nat := 0
  outBytesPerSec : Nat := 0
  totalInOctets : Nat := 0
  totalOutOctets : Nat := 0
  inPacketsPerSec : Option Nat := none
  outPacketsPerSec : Option Nat := none
  inErrors : Option Nat := none
  outErrors : Option Nat := none
deriving Repr, DecidableEq

/-- Embeds `SystemMetrics` (Types.h, lines 137-145); the temperature family
is modelled opaquely by a unit placeholder since no claim inspects it. -/
structure SystemMetrics where
  cpu : Option CpuStats := none
  memory : Option MemoryStats := none
  disks : Option (List DiskStats) := none
  network : Option (List InterfaceStats) := none
  temperature : Option Unit := none
  timestamp : Nat := 0
deriving Repr, DecidableEq

/-! ## StateManager (src/WinHKMonLib/StateManager.cpp)

The state file is modelled as an optional list of lines (`none` = the file
is missing or cannot be opened; `save` writes each line with a trailing
newline and `load` reads with `std::getline`, so a file and its line list
are in exact correspondence — sanitized keys contain no newline). -/

/-- Embeds `StateManager::validateVersion` (StateManager.cpp, lines 16-19):
accept exactly the versions whose text starts with `1.`. -/
def validateVersion (version : Str) : Bool :=
  version.take 2 = str "1."

/-- Embeds `StateManager::sanitizeKey` (StateManager.cpp, lines 21-29):
replace each tab, LF and CR with an underscore, leave all else unchanged. -/
def sanitizeKey (key : Str) : Str :=
  key.map (fun c => if c = '\t' || c = '\n' || c = '\r' then '_' else c)

/-- The two lines `StateManager::save` writes for one network interface
(StateManager.cpp, lines 185-189). -/
def netLines (i : InterfaceStats) : List Str :=
  [str "NETWORK_" ++ sanitizeKey i.name ++ str "_IN " ++ natToStr i.totalInOctets,
   str "NETWORK_" ++ sanitizeKey i.name ++ str "_OUT " ++ natToStr i.totalOutOctets]

/-- The two lines `StateManager::save` writes for one disk
(StateManager.cpp, lines 193-198). -/
def diskLines (d : DiskStats) : List Str :=
  [str "DISK_" ++ sanitizeKey d.deviceName ++ str "_READ " ++ natToStr d.totalBytesRead,
   str "DISK_" ++ sanitizeKey d.deviceName ++ str "_WRITE " ++ natToStr d.totalBytesWritten]

/-- The full contents `StateManager::save` writes (StateManager.cpp,
lines 177-199): version header, timestamp header, then per-device counter
lines, network interfaces before disks, in container order. -/
def saveLines (m : SystemMetrics) : List Str :=
  [str "VERSION 1.0", str "TIMESTAMP " ++ natToStr m.timestamp]
  ++ (match m.network with
      | none => []
      | some ifaces => ifaces.flatMap netLines)
  ++ (match m.disks with
      | none => []
      | some ds => ds.flatMap diskLines)

/-- Embeds `StateManager::save` (StateManager.cpp, lines 169-203) over an
explicit file-system state.  `openOk` models whether the `std::ofstream`
opens; opening with `std::ios::trunc` discards the old contents, so the
written file depends only on the metrics.  `writeOk` models `file.good()`
after the writes.  The function is total: no code path throws. -/
def save (openOk writeOk : Bool) (m : SystemMetrics) (fs : Option (List Str)) :
    Bool × Option (List Str) :=
  if !openOk then (false, fs)
  else (writeOk, some (saveLines m))

/-- A fresh `InterfaceStats` as `StateManager::load` creates one
(StateManager.cpp, lines 104-115): all counters zero, disconnected. -/
def mkIface (name : Str) : InterfaceStats :=
  { name := name, isConnected := false, linkSpeedBitsPerSec := 0,
    inBytesPerSec := 0, outBytesPerSec := 0,
    totalInOctets := 0, totalOutOctets := 0 }

/-- A fresh `DiskStats` as `StateManager::load` creates one
(StateManager.cpp, lines 136-146): all counters zero. -/
def mkDisk (name : Str) : DiskStats :=
  { deviceName := name, totalSizeBytes := 0, bytesReadPerSec := 0,
    bytesWrittenPerSec := 0, percentBusy := 0,
    totalBytesRead := 0, totalBytesWritten := 0 }

/-- Field update applied after the find-or-create step for a network key
(StateManager.cpp, lines 117-121): only `IN` and `OUT` change anything. -/
def setNetField (e : InterfaceStats) (field : Str) (v : Nat) : InterfaceStats :=
  if field = str "IN" then { e with totalInOctets := v }
  else if field = str "OUT" then { e with totalOutOctets := v }
  else e

/-- Field update for a disk key (StateManager.cpp, lines 149-153). -/
def setDiskField (d : DiskStats) (field : Str) (v : Nat) : DiskStats :=
  if field = str "READ" then { d with totalBytesRead := v }
  else if field = str "WRITE" then { d with totalBytesWritten := v }
  else d

/-- Find-or-create for a network interface (StateManager.cpp, lines 98-121):
update the first entry with the given name, or push a fresh one at the back
and update that. -/
def updNet : List InterfaceStats → Str → Str → Nat → List InterfaceStats
  | [], name, field, v => [setNetField (mkIface name) field v]
  | e :: es, name, field, v =>
    if e.name = name then setNetField e field v :: es
    else e :: updNet es name field v

/-- Find-or-create for a disk (StateManager.cpp, lines 130-153). -/
def updDisk : List DiskStats → Str → Str → Nat → List DiskStats
  | [], name, field, v => [setDiskField (mkDisk name) field v]
  | d :: ds, name, field, v =>
    if d.deviceName = name then setDiskField d field v :: ds
    else d :: updDisk ds name field v

/-- One iteration of the counter-line loop of `StateManager::load`
(StateManager.cpp, lines 79-155): skip empty lines, extract `key value`
with stream semantics (skipping the line on failure), then dispatch on the
`NETWORK_` / `DISK_` prefix, split the key at its last underscore (skipping
the line when that underscore is missing or inside the prefix), and apply
the find-or-create update. -/
def processLine (st : List InterfaceStats × List DiskStats) (line : Str) :
    List InterfaceStats × List DiskStats :=
  if line.isEmpty then st
  else
    match extractToken line with
    | none => st
    | some (key, rest) =>
      match parseULL rest with
      | none => st
      | some v =>
        if key.take 8 = str "NETWORK_" then
          match rfindIdx (fun c => c = '_') key with
          | none => st
          | some lu =>
            if lu ≤ 8 then st
            else (updNet st.1 ((key.drop 8).take (lu - 8)) (key.drop (lu + 1)) v, st.2)
        else if key.take 5 = str "DISK_" then
          match rfindIdx (fun c => c = '_') key with
          | none => st
          | some lu =>
            if lu ≤ 5 then st
            else (st.1, updDisk st.2 ((key.drop 5).take (lu - 5)) (key.drop (lu + 1)) v)
        else st

/-- What `StateManager::load` reports on success: the parsed timestamp and
the `network` / `disks` fields it assigns into the caller's fresh
`SystemMetrics` (each only when nonempty, StateManager.cpp lines 157-164). -/
structure LoadResult where
  timestamp : Nat
  network : Option (List InterfaceStats)
  disks : Option (List DiskStats)
deriving Repr, DecidableEq

/-- Embeds the parsing body of `StateManager::load` (StateManager.cpp,
lines 43-166) on the lines of an opened file; `none` models the
`return false` paths (empty file, bad version header, incompatible version,
bad timestamp header). -/
def loadLines (lines : List Str) : Option LoadResult :=
  match lines with
  | [] => none
  | l1 :: rest1 =>
    if l1.take 8 ≠ str "VERSION " then none
    else if !validateVersion (l1.drop 8) then none
    else
      match rest1 with
      | [] => none
      | l2 :: rest2 =>
        if l2.take 10 ≠ str "TIMESTAMP " then none
        else
          match parseULL (l2.drop 10) with
          | none => none
          | some ts =>
            let st := rest2.foldl processLine ([], [])
            some { timestamp := ts,
                   network := if st.1.isEmpty then none else some st.1,
                   disks := if st.2.isEmpty then none else some st.2 }

/-- Embeds `StateManager::load` (StateManager.cpp, lines 31-167) over the
explicit file-system state: a missing or unopenable file (`none`) yields
`found = false`, otherwise the lines are parsed. -/
def load (file : Option (List Str)) : Option LoadResult :=
  match file with
  | none => none
  | some lines => loadLines lines

theorem load_some_eq (lines : List Str) : load (some lines) = loadLines lines := rfl

/-- C6: `StateManager::save` fully overwrites the previous state file.  When
the destination opens, the written contents are exactly the serialization of
the metrics, independent of whatever the file held before (no append, no
merge — conjuncts 1 and 2); the call returns `false` exactly when the
destination cannot be opened or the writes fail (conjuncts 3 and 4); and it
never throws for ordinary I/O failure (`save` is a total function: every
open/write failure is reported through the returned Bool, never an
exception). -/
theorem save_truncates_and_reports_failure (m : SystemMetrics) :
    (∀ w fs₁ fs₂, (save true w m fs₁).2 = (save true w m fs₂).2) ∧
    (∀ w fs, (save true w m fs).2 = some (saveLines m)) ∧
    (∀ w fs, (save false w m fs).1 = false) ∧
    (∀ w fs, (save true w m fs).1 = w) :=
  ⟨fun _ _ _ => rfl, fun _ _ => rfl, fun _ _ => rfl, fun _ _ => rfl⟩

/-- The exact metrics of the repository's own round-trip test
(tests/StateManagerTest.cpp, `SaveAndLoadRoundTrip`): one interface named
`Ethernet` and one disk named `0 C:` — a device name with a space and no
tab/CR/LF. -/
def roundTripTestMetrics : SystemMetrics :=
  { timestamp := 1234567890,
    network := some [{ mkIface (str "Ethernet") with
                        totalInOctets := 1000000000,
                        totalOutOctets := 500000000 }],
    disks := some [{ mkDisk (str "0 C:") with
                      totalBytesRead := 5000000000,
                      totalBytesWritten := 2500000000 }] }

/-- C3: evaluation of save-then-load at the failing input.  `sanitizeKey`
leaves the space in `0 C:` intact, so `save` writes the line
`DISK_0 C:_READ 5000000000`; on reload the stream extraction reads the key
`DISK_0` and then fails to parse `C:_READ` as a number, so both disk lines
are skipped: `load` returns found = true with the interface intact but with
no disks at all.  This contradicts the claimed round-trip (and the
repository's own `SaveAndLoadRoundTrip` test, which asserts
`loadedMetrics.disks.has_value()` for exactly these metrics). -/
theorem saveLoad_drops_disk_named_with_space :
    load (some (saveLines roundTripTestMetrics)) =
      some { timestamp := 1234567890,
             network := some [{ mkIface (str "Ethernet") with
                                 totalInOctets := 1000000000,
                                 totalOutOctets := 500000000 }],
             disks := none } := by decide

/-- The claim's well-formedness reading of the timestamp header, following
the spec's words: `TIMESTAMP ` followed by a (nonempty) decimal numeral for
an unsigned 64-bit value, nothing else on the line. -/
def wellFormedTimestampLine (l : Str) : Bool :=
  l.take 10 = str "TIMESTAMP " &&
  !(l.drop 10).isEmpty &&
  (l.drop 10).all isDigitChar &&
  (scanDigits 0 0 (l.drop 10)).1 < 2 ^ 64

/-- Version-header acceptance exactly as `StateManager::load` implements it:
the line starts with `VERSION ` and the version text starts with `1.`. -/
def goodVersionLine (l : Str) : Bool :=
  l.take 8 = str "VERSION " && validateVersion (l.drop 8)

/-- Timestamp-header acceptance exactly as `StateManager::load` implements
it: the line starts with `TIMESTAMP ` and `stoull` succeeds on the rest. -/
def goodTimestampLine (l : Str) : Bool :=
  l.take 10 = str "TIMESTAMP " && (parseULL (l.drop 10)).isSome

/-- All failure paths of `loadLines` are in the header phase: parsing
succeeds exactly when there are at least two lines and both headers are
accepted; the counter lines after them can never fail the load. -/
theorem loadLines_isSome_iff (lines : List Str) :
    (loadLines lines).isSome = true ↔
      ∃ l1 l2 rest, lines = l1 :: l2 :: rest ∧
        goodVersionLine l1 = true ∧ goodTimestampLine l2 = true := by
  cases lines with
  | nil => simp [loadLines]
  | cons l1 rest1 =>
    cases rest1 with
    | nil =>
      by_cases h1 : List.take 8 l1 = str "VERSION "
      · by_cases h2 : validateVersion (List.drop 8 l1) = true <;>
          simp [loadLines, h1, h2]
      · simp [loadLines, h1]
    | cons l2 rest2 =>
      by_cases h1 : List.take 8 l1 = str "VERSION "
      · by_cases h2 : validateVersion (List.drop 8 l1) = true
        · by_cases h3 : List.take 10 l2 = str "TIMESTAMP "
          · cases hp : parseULL (List.drop 10 l2) with
            | none =>
              simp [loadLines, goodVersionLine, goodTimestampLine, h1, h2, h3, hp]
            | some ts =>
              simp only [loadLines, goodVersionLine, goodTimestampLine, h1, h2, h3, hp]
              simp only [ne_eq, not_true_eq_false, if_false, Bool.not_true,
                ite_false, ite_true]
              constructor
              · intro _
                exact ⟨l1, l2, rest2, rfl, by simp [goodVersionLine, h1, h2],
                  by simp [goodTimestampLine, h3, hp]⟩
              · intro _
                simp
          · simp [loadLines, goodVersionLine, goodTimestampLine, h1, h2, h3]
        · simp [loadLines, goodVersionLine, h1, h2]
      · simp [loadLines, goodVersionLine, h1]

/-- C4 (amended): `StateManager::load` returns found = false exactly when
the file is missing/unopenable, has fewer than two lines, its first line
fails the version check (does not start with `VERSION ` followed by text
starting `1.`), or its second line fails the timestamp check (does not
start with `TIMESTAMP ` followed by text that `stoull` accepts — `stoull`
skips leading spaces, accepts a sign, and ignores trailing junk, so e.g.
`TIMESTAMP 123abc` still loads).  Whatever the counter lines after the two
headers contain, the load still returns found = true (conjunct 3), and the
incompatible `VERSION 0.5` file of Scenario E yields found = false
(conjunct 2). -/
theorem load_found_characterization :
    (∀ file : Option (List Str),
      load file ≠ none ↔
        ∃ l1 l2 rest, file = some (l1 :: l2 :: rest) ∧
          goodVersionLine l1 = true ∧ goodTimestampLine l2 = true) ∧
    load (some [str "VERSION 0.5", str "TIMESTAMP 1234567890"]) = none ∧
    (∀ l1 l2 rest, goodVersionLine l1 = true → goodTimestampLine l2 = true →
      load (some (l1 :: l2 :: rest)) ≠ none) := by
  have hmain : ∀ file : Option (List Str),
      load file ≠ none ↔
        ∃ l1 l2 rest, file = some (l1 :: l2 :: rest) ∧
          goodVersionLine l1 = true ∧ goodTimestampLine l2 = true := by
    intro file
    cases file with
    | none => simp [load]
    | some lines =>
      rw [show load (some lines) = loadLines lines from rfl]
      rw [← Option.isSome_iff_ne_none, loadLines_isSome_iff]
      constructor
      · rintro ⟨l1, l2, rest, rfl, hv, ht⟩
        exact ⟨l1, l2, rest, rfl, hv, ht⟩
      · rintro ⟨l1, l2, rest, heq, hv, ht⟩
        obtain rfl : lines = l1 :: l2 :: rest := by simpa using heq
        exact ⟨l1, l2, rest, rfl, hv, ht⟩
  refine ⟨hmain, by decide, ?_⟩
  intro l1 l2 rest hv ht
  exact (hmain (some (l1 :: l2 :: rest))).mpr ⟨l1, l2, rest, rfl, hv, ht⟩

/-- Witness for C4: the amended characterization applied to a concrete file
whose two headers are good and whose counter section is garbage — the load
still reports found = true. -/
theorem load_found_characterization_witness :
    load (some [str "VERSION 1.0", str "TIMESTAMP 42",
                str "complete garbage", str "NETWORK_ 5"]) ≠ none :=
  load_found_characterization.2.2 (str "VERSION 1.0") (str "TIMESTAMP 42")
    [str "complete garbage", str "NETWORK_ 5"] (by decide) (by decide)

/-- C4: counterexample to the claim as stated.  The second line
`TIMESTAMP 123abc` is not a well-formed `TIMESTAMP <unsigned 64-bit>` header
(trailing junk after the digits), yet `load` returns found = true with
timestamp 123, because `std::stoull` ignores trailing characters. -/
theorem load_accepts_malformed_timestamp_line :
    wellFormedTimestampLine (str "TIMESTAMP 123abc") = false ∧
    load (some [str "VERSION 1.0", str "TIMESTAMP 123abc"]) =
      some { timestamp := 123, network := none, disks := none } := by decide

/-! ## CpuMonitor (src/WinHKMonLib/CpuMonitor.cpp)

The member state of `CpuMonitor` (hQuery_, hCpuTotal_, hCpuCores_,
initialized_, coreCount_) is an explicit record; PDH handles are opaque
naturals.  The PDH readings a `getCurrentStats` call would observe are
passed in explicitly, each fallible step as an `Except`. -/

/-- The member variables of `CpuMonitor` (CpuMonitor.h): the PDH query and
counter handles (opaque, `none` = `nullptr`), the per-core counter handles,
the `initialized_` flag and the cached core count. -/
structure CpuMonitorState where
  hQuery : Option Nat
  hCpuTotal : Option Nat
  hCpuCores : List Nat
  initialized : Bool
  coreCount : Nat
deriving Repr, DecidableEq

/-- Embeds `CpuMonitor::cleanup` (CpuMonitor.cpp, lines 149-159): close the
query when one is open (releasing the handle), null both handles, clear the
per-core handles, reset the flag and the core count.  Every path is a plain
assignment, so the embedding is a total function: `cleanup` never raises. -/
def cpuCleanup (_s : CpuMonitorState) : CpuMonitorState :=
  { hQuery := none, hCpuTotal := none, hCpuCores := [],
    initialized := false, coreCount := 0 }

/-- The readings one `CpuMonitor::getCurrentStats` call obtains from PDH and
from `CallNtPowerInformation`: whether `PdhCollectQueryData` succeeds, the
formatted total-CPU value, the formatted per-core values (one per core,
fallible individually) and the per-core frequencies in MHz. -/
structure PdhSample where
  collectOk : Bool
  totalValue : Except Unit ℚ
  coreValues : List (Except Unit ℚ)
  freqs : Except Unit (List Nat)
deriving Repr

/-- The clamp applied to every PDH percentage (CpuMonitor.cpp, lines
102-104 and 119-121): values below 0 become 0, values above 100 become
100. -/
def clampPercent (x : ℚ) : ℚ :=
  if x < 0 then 0 else if 100 < x then 100 else x

/-- The per-core loop of `CpuMonitor::getCurrentStats` (CpuMonitor.cpp,
lines 106-122): each core's formatted value is read (a failure aborts the
whole call), clamped, and stored with its core id; `frequencyMhz` is still
the value-initialized 0 at this point. -/
def collectCoresGo (i : Nat) : List (Except Unit ℚ) → Except Unit (List CoreStats)
  | [] => .ok []
  | .error e :: _ => .error e
  | .ok v :: rest =>
    match collectCoresGo (i + 1) rest with
    | .error e => .error e
    | .ok cs => .ok ({ coreId := i, usagePercent := clampPercent v,
                       frequencyMhz := 0 } :: cs)

/-- The frequency-assignment loop (CpuMonitor.cpp, lines 128-131): core `i`
gets `frequencies[i]` for `i` below both lengths; later cores keep 0. -/
def applyFreqs : List CoreStats → List Nat → List CoreStats
  | cs, [] => cs
  | [], _ => []
  | c :: cs, f :: fs => { c with frequencyMhz := f } :: applyFreqs cs fs

/-- Embeds `CpuMonitor::calculateAverageFrequency` (CpuMonitor.cpp, lines
189-196); the `uint64_t` accumulation wraps modulo `2^64`. -/
def calculateAverageFrequency (freqs : List Nat) : Nat :=
  if freqs.isEmpty then 0
  else (freqs.foldl (fun a b => (a + b) % 2 ^ 64) 0) / freqs.length

/-- Embeds `CpuMonitor::getCurrentStats` (CpuMonitor.cpp, lines 81-147):
guard on `initialized_` (throwing before any provider access), collect the
sample, read and clamp the total and per-core percentages, then try the
frequency step — on its failure the frequencies stay 0 (non-fatal). -/
def cpuGetCurrentStats (s : CpuMonitorState) (sample : PdhSample) :
    Except String CpuStats :=
  if !s.initialized then
    .error "CpuMonitor not initialized. Call initialize() first."
  else if !sample.collectOk then .error "PdhCollectQueryData failed"
  else
    match sample.totalValue with
    | .error _ => .error "PdhGetFormattedCounterValue (total) failed"
    | .ok tv =>
      match collectCoresGo 0 sample.coreValues with
      | .error _ => .error "PdhGetFormattedCounterValue (core) failed"
      | .ok cores =>
        match sample.freqs with
        | .ok fs =>
          .ok { totalUsagePercent := clampPercent tv,
                cores := applyFreqs cores fs,
                averageFrequencyMhz := calculateAverageFrequency fs }
        | .error _ =>
          .ok { totalUsagePercent := clampPercent tv,
                cores := cores,
                averageFrequencyMhz := 0 }

/-! ## DiskMonitor (src/WinHKMonLib/DiskMonitor.cpp) -/

/-- The member variables of `DiskMonitor` (DiskMonitor.h): the PDH query
handle, the map from disk-instance name to its three counter handles
(modelled by the ordered list of instance names; the per-handle readings
are supplied as functions of the name), and the `initialized_` flag. -/
structure DiskMonitorState where
  hQuery : Option Nat
  counters : List Str
  initialized : Bool
deriving Repr, DecidableEq

/-- Embeds `DiskMonitor::cleanup` (DiskMonitor.cpp, lines 251-259): close
the query when open, clear the counter map, reset the flag; total, never
raises. -/
def diskCleanup (_s : DiskMonitorState) : DiskMonitorState :=
  { hQuery := none, counters := [], initialized := false }

/-- Embeds the anonymous-namespace helper `extractFriendlyDiskName`
(DiskMonitor.cpp, lines 39-55): keep `_Total`, otherwise return everything
after the first space when a character follows it. -/
def extractFriendlyDiskName (n : Str) : Str :=
  if n = str "_Total" then n
  else
    match List.findIdx? (fun c => c = ' ') n with
    | some p => if p + 1 < n.length then n.drop (p + 1) else n
    | none => n

/-- Embeds `DiskMonitor::extractDriveLetter` (DiskMonitor.cpp, lines
321-336): the ASCII letter right before the first colon, followed by a
colon; empty when there is none. -/
def extractDriveLetter (n : Str) : Str :=
  match List.findIdx? (fun c => c = ':') n with
  | some p =>
    if 0 < p then
      match n.get? (p - 1) with
      | some dl =>
        if ('A' ≤ dl && dl ≤ 'Z') || ('a' ≤ dl && dl ≤ 'z') then [dl, ':']
        else []
      | none => []
    else []
  | none => []

/-- Embeds `DiskMonitor::getDiskSpace` (DiskMonitor.cpp, lines 295-319)
given the OS answer for a drive (`some (total, free)` when
`GetDiskFreeSpaceExW` succeeds): returns (total, free, used). -/
def getDiskSpace (space : Str → Option (Nat × Nat)) (driveLetter : Str) :
    Nat × Nat × Nat :=
  match space driveLetter with
  | some (total, free) => (total, free, if free < total then total - free else 0)
  | none => (0, 0, 0)

/-- Embeds `DiskMonitor::getCurrentStats` (DiskMonitor.cpp, lines 157-249):
guard on `initialized_` (throwing before any provider access), collect the
sample, then build one `DiskStats` per registered instance.  A failed or
invalid formatted value yields 0 for that field (never an exception); the
cumulative counters are left 0 (lines 235-238). -/
def diskGetCurrentStats (s : DiskMonitorState) (collectOk : Bool)
    (readVal writeVal : Str → Option Nat) (busyVal : Str → Option ℚ)
    (space : Str → Option (Nat × Nat)) : Except String (List DiskStats) :=
  if !s.initialized then .error "DiskMonitor not initialized"
  else if !collectOk then .error "PdhCollectQueryData failed with error"
  else
    .ok (s.counters.map (fun diskName =>
      let dl := extractDriveLetter diskName
      let sp := if dl.isEmpty then ((0, 0, 0) : Nat × Nat × Nat)
                else getDiskSpace space dl
      { deviceName := extractFriendlyDiskName diskName,
        bytesReadPerSec := (readVal diskName).getD 0,
        bytesWrittenPerSec := (writeVal diskName).getD 0,
        percentBusy := (busyVal diskName).getD 0,
        totalSizeBytes := sp.1,
        freeBytes := sp.2.1,
        usedBytes := sp.2.2,
        totalBytesRead := 0,
        totalBytesWritten := 0 }))

/-- C8: for both collectors, `cleanup()` is a total function (never raises),
calling it twice — with or without any prior initialization, i.e. from every
reachable member state — yields the same state as calling it once, and after
each call the collector is in the UNINITIALIZED state: no open query handle
and `initialized_ = false`. -/
theorem cleanup_idempotent_uninitialized :
    (∀ s : CpuMonitorState,
      cpuCleanup (cpuCleanup s) = cpuCleanup s ∧
      (cpuCleanup s).initialized = false ∧
      (cpuCleanup s).hQuery = none) ∧
    (∀ s : DiskMonitorState,
      diskCleanup (diskCleanup s) = diskCleanup s ∧
      (diskCleanup s).initialized = false ∧
      (diskCleanup s).hQuery = none) :=
  ⟨fun _ => ⟨rfl, rfl, rfl⟩, fun _ => ⟨rfl, rfl, rfl⟩⟩

/-- Cores produced by the per-core loop all carry a clamped usage value. -/
theorem collectCoresGo_usage (i : Nat) (l : List (Except Unit ℚ))
    (cs : List CoreStats) (h : collectCoresGo i l = .ok cs) :
    ∀ c ∈ cs, ∃ v, c.usagePercent = clampPercent v := by
  induction l generalizing i cs with
  | nil =>
    simp only [collectCoresGo] at h
    cases h
    intro c hc
    exact absurd hc (List.not_mem_nil c)
  | cons hd tl ih =>
    cases hd with
    | error e => simp [collectCoresGo] at h
    | ok v =>
      simp only [collectCoresGo] at h
      cases hrec : collectCoresGo (i + 1) tl with
      | error e => rw [hrec] at h; cases h
      | ok cs0 =>
        rw [hrec] at h
        cases h
        intro c hc
        rcases List.mem_cons.mp hc with rfl | hmem
        · exact ⟨v, rfl⟩
        · exact ih (i + 1) cs0 hrec c hmem

/-- The frequency-assignment loop never changes a core's usage value. -/
theorem applyFreqs_usage (cs : List CoreStats) (fs : List Nat) :
    ∀ c ∈ applyFreqs cs fs, ∃ c₀ ∈ cs, c.usagePercent = c₀.usagePercent := by
  induction cs generalizing fs with
  | nil =>
    intro c hc
    cases fs <;> simp [applyFreqs] at hc
  | cons hd tl ih =>
    intro c hc
    cases fs with
    | nil =>
      exact ⟨c, by simpa [applyFreqs] using hc, rfl⟩
    | cons f ftl =>
      simp only [applyFreqs] at hc
      rcases List.mem_cons.mp hc with rfl | hmem
      · exact ⟨hd, List.mem_cons_self hd tl, rfl⟩
      · obtain ⟨c₀, hc₀, he⟩ := ih ftl c hmem
        exact ⟨c₀, List.mem_cons_of_mem hd hc₀, he⟩

/-- The clamp really lands in [0, 100]. -/
theorem clampPercent_bounds (x : ℚ) :
    0 ≤ clampPercent x ∧ clampPercent x ≤ 100 := by
  unfold clampPercent
  split_ifs with h1 h2
  · norm_num
  · norm_num
  · exact ⟨le_of_not_lt h1, le_of_not_lt h2⟩

/-- C9: every CPU usage percentage returned by
`CpuMonitor::getCurrentStats` — the total and each per-core value — lies in
[0, 100]: the raw provider values are clamped to 0 from below and 100 from
above before being returned, whatever the provider reports. -/
theorem cpuGetCurrentStats_percent_bounds (s : CpuMonitorState)
    (sample : PdhSample) (stats : CpuStats)
    (h : cpuGetCurrentStats s sample = .ok stats) :
    (0 ≤ stats.totalUsagePercent ∧ stats.totalUsagePercent ≤ 100) ∧
    ∀ c ∈ stats.cores, 0 ≤ c.usagePercent ∧ c.usagePercent ≤ 100 := by
  unfold cpuGetCurrentStats at h
  split at h
  · exact Except.noConfusion h
  split at h
  · exact Except.noConfusion h
  split at h
  next => exact Except.noConfusion h
  next tv htv =>
    split at h
    next => exact Except.noConfusion h
    next cores hcc =>
      split at h
      next fs hfq =>
        injection h with h2
        subst h2
        refine ⟨clampPercent_bounds tv, fun c hc => ?_⟩
        obtain ⟨c₀, hc₀, he⟩ := applyFreqs_usage cores fs c hc
        obtain ⟨v, hv⟩ := collectCoresGo_usage 0 sample.coreValues cores hcc c₀ hc₀
        exact (he.trans hv) ▸ clampPercent_bounds v
      next hfq =>
        injection h with h2
        subst h2
        refine ⟨clampPercent_bounds tv, fun c hc => ?_⟩
        obtain ⟨v, hv⟩ := collectCoresGo_usage 0 sample.coreValues cores hcc c hc
        exact hv ▸ clampPercent_bounds v

/-- Witness for C9: the theorem applied to an initialized monitor whose
provider reports an out-of-range total (150%) and a negative core value;
the returned stats are clamped into range. -/
theorem cpuGetCurrentStats_percent_bounds_witness :
    (0 ≤ (100 : ℚ) ∧ (100 : ℚ) ≤ 100) ∧
    ∀ c ∈ [({ coreId := 0, usagePercent := 0, frequencyMhz := 0 } : CoreStats)],
      0 ≤ c.usagePercent ∧ c.usagePercent ≤ 100 := by
  have h := cpuGetCurrentStats_percent_bounds
    { hQuery := some 1, hCpuTotal := some 2, hCpuCores := [3],
      initialized := true, coreCount := 1 }
    { collectOk := true, totalValue := .ok 150,
      coreValues := [.ok (-5)], freqs := .error () }
    { totalUsagePercent := 100,
      cores := [{ coreId := 0, usagePercent := 0, frequencyMhz := 0 }],
      averageFrequencyMhz := 0 }
    (by rfl)
  exact h

/-- C10: with `initialized_ = false` (never initialized, or cleaned up
since), `getCurrentStats` on the CPU and on the disk collector returns the
not-initialized runtime error — and does so for every possible provider
behaviour, i.e. before any provider query is consulted. -/
theorem getCurrentStats_requires_initialization :
    (∀ (s : CpuMonitorState) (sample : PdhSample), s.initialized = false →
      cpuGetCurrentStats s sample =
        .error "CpuMonitor not initialized. Call initialize() first.") ∧
    (∀ (s : DiskMonitorState) (collectOk : Bool)
      (readVal writeVal : Str → Option Nat) (busyVal : Str → Option ℚ)
      (space : Str → Option (Nat × Nat)), s.initialized = false →
      diskGetCurrentStats s collectOk readVal writeVal busyVal space =
        .error "DiskMonitor not initialized") := by
  constructor
  · intro s sample h
    unfold cpuGetCurrentStats
    rw [h]
    rfl
  · intro s collectOk readVal writeVal busyVal space h
    unfold diskGetCurrentStats
    rw [h]
    rfl

/-- Witness for C10: both halves of the theorem applied to concrete
never-initialized collector states with concrete provider behaviour. -/
theorem getCurrentStats_requires_initialization_witness :
    cpuGetCurrentStats
      { hQuery := none, hCpuTotal := none, hCpuCores := [],
        initialized := false, coreCount := 0 }
      { collectOk := true, totalValue := .ok 50, coreValues := [],
        freqs := .ok [] } =
      .error "CpuMonitor not initialized. Call initialize() first." ∧
    diskGetCurrentStats
      { hQuery := none, counters := [str "0 C:"], initialized := false }
      true (fun _ => some 1) (fun _ => some 2) (fun _ => some 3)
      (fun _ => some (10, 4)) =
      .error "DiskMonitor not initialized" :=
  ⟨getCurrentStats_requires_initialization.1 _ _ rfl,
   getCurrentStats_requires_initialization.2 _ _ _ _ _ _ rfl⟩

/-! ## collectMetrics (src/WinHKMon/main.cpp, lines 45-171)

One sampling cycle.  The clock reads (`getCurrentTimestamp`,
`getPerformanceFrequency`) are passed in as values — their failure is the
fatal clock error that aborts the whole cycle and is outside this function's
per-family recovery.  Each metric family's fetch outcome is an `Except`
(`error` = the exception its try-block catches); the catch blocks print a
warning to stderr (I/O, not modelled) and leave that family's optional field
unset. -/

/-- The fields of `CliOptions` (Types.h, lines 181-206) that `collectMetrics`
reads; the output/interval options are not consulted there. -/
structure CliOptions where
  showCpu : Bool := false
  showMemory : Bool := false
  showDiskSpace : Bool := false
  showDiskIO : Bool := false
  showNetwork : Bool := false
  showTemp : Bool := false
  networkInterface : Str := []
deriving Repr, DecidableEq

/-- `static_cast<uint64_t>` applied to the nonnegative `double` rates in
`collectMetrics`: truncation toward zero. -/
def q2u64 (q : ℚ) : Nat := q.floor.toNat

/-- The per-interface rate step (main.cpp, lines 88-108): find the previous
sample for this interface by name; when present, overwrite the rate fields
with `calculateRate` of the cumulative octet counters. -/
def rateNetIface (elapsed : ℚ) (prevList : List InterfaceStats)
    (iface : InterfaceStats) : InterfaceStats :=
  match prevList.find? (fun p => p.name = iface.name) with
  | some p =>
    { iface with
      inBytesPerSec := q2u64 (calculateRate iface.totalInOctets p.totalInOctets elapsed),
      outBytesPerSec := q2u64 (calculateRate iface.totalOutOctets p.totalOutOctets elapsed) }
  | none => iface

/-- The guard around the network rate loop (main.cpp, line 87): rates are
recomputed only when elapsed time is positive and a previous network sample
exists. -/
def applyNetRates (elapsed : ℚ) (prev : Option (List InterfaceStats))
    (ifaces : List InterfaceStats) : List InterfaceStats :=
  match prev with
  | some pl => if 0 < elapsed then ifaces.map (rateNetIface elapsed pl) else ifaces
  | none => ifaces

/-- Interface filtering (main.cpp, lines 111-126): an empty requested name
keeps all interfaces; otherwise only the matching one is kept, and when it
is missing a warning is printed and the network field stays unset. -/
def filterIface (which : Str) (ifaces : List InterfaceStats) :
    Option (List InterfaceStats) :=
  if which.isEmpty then some ifaces
  else
    match ifaces.find? (fun i => i.name = which) with
    | some i => some [i]
    | none => none

/-- The per-disk accumulation step (main.cpp, lines 142-159): when a
previous sample for this device exists, the cumulative totals are the
previous totals plus the PDH rate integrated over the elapsed time
(`uint64_t` addition, hence modulo `2^64`). -/
def accDisk (elapsed : ℚ) (prevList : List DiskStats) (d : DiskStats) :
    DiskStats :=
  match prevList.find? (fun p => p.deviceName = d.deviceName) with
  | some p =>
    { d with
      totalBytesRead :=
        (p.totalBytesRead + q2u64 ((d.bytesReadPerSec : ℚ) * elapsed)) % 2 ^ 64,
      totalBytesWritten :=
        (p.totalBytesWritten + q2u64 ((d.bytesWrittenPerSec : ℚ) * elapsed)) % 2 ^ 64 }
  | none => d

/-- The guard around the disk accumulation loop (main.cpp, line 141). -/
def applyDiskAcc (elapsed : ℚ) (prev : Option (List DiskStats))
    (disks : List DiskStats) : List DiskStats :=
  match prev with
  | some pl => if 0 < elapsed then disks.map (accDisk elapsed pl) else disks
  | none => disks

/-- Embeds `collectMetrics` (main.cpp, lines 45-171).  The four family
fetches are independent try-blocks executed in source order; a caught
exception leaves that family's field unset (`none`) and the cycle
continues.  Monitor-pointer null checks (`cpuMonitor != nullptr` etc.) are
the `*Present` booleans. -/
def collectMetrics (options : CliOptions)
    (cpuMonitorPresent networkMonitorPresent diskMonitorPresent : Bool)
    (now frequency : Nat)
    (cpuRes : Except Unit CpuStats) (memRes : Except Unit MemoryStats)
    (netRes : Except Unit (List InterfaceStats))
    (diskRes : Except Unit (List DiskStats))
    (previousMetrics : SystemMetrics) (previousTimestamp : Nat) :
    SystemMetrics :=
  let elapsedSeconds := calculateElapsedSeconds now previousTimestamp frequency
  let cpu :=
    if options.showCpu && cpuMonitorPresent then
      match cpuRes with
      | .ok v => some v
      | .error _ => none
    else none
  let memory :=
    if options.showMemory then
      match memRes with
      | .ok v => some v
      | .error _ => none
    else none
  let network :=
    if options.showNetwork && networkMonitorPresent then
      match netRes with
      | .ok interfaces =>
        filterIface options.networkInterface
          (applyNetRates elapsedSeconds previousMetrics.network interfaces)
      | .error _ => none
    else none
  let disks :=
    if (options.showDiskSpace || options.showDiskIO) && diskMonitorPresent then
      match diskRes with
      | .ok ds => some (applyDiskAcc elapsedSeconds previousMetrics.disks ds)
      | .error _ => none
    else none
  { cpu := cpu, memory := memory, disks := disks, network := network,
    temperature := none, timestamp := now }

/-- C7: within one `collectMetrics` cycle the four metric families are
independently fallible.  Conjuncts 1-4: replacing one family's fetch outcome
by any other (in particular a failure) leaves every other field of the
resulting snapshot unchanged — stated by erasing the family's own field and
comparing whole snapshots.  Conjuncts 5-8: a family whose fetch raises has
its data absent (`none`) from the snapshot.  Conjuncts 9-12: a requested
family whose fetch succeeds has its (post-processed) results included,
whatever the other families did. -/
theorem collectMetrics_family_isolation (o : CliOptions)
    (cm nm dm : Bool) (now freq : Nat)
    (cpuRes : Except Unit CpuStats) (memRes : Except Unit MemoryStats)
    (netRes : Except Unit (List InterfaceStats))
    (diskRes : Except Unit (List DiskStats))
    (prev : SystemMetrics) (pts : Nat) :
    (∀ c₁ c₂,
      { collectMetrics o cm nm dm now freq c₁ memRes netRes diskRes prev pts
          with cpu := none } =
      { collectMetrics o cm nm dm now freq c₂ memRes netRes diskRes prev pts
          with cpu := none }) ∧
    (∀ m₁ m₂,
      { collectMetrics o cm nm dm now freq cpuRes m₁ netRes diskRes prev pts
          with memory := none } =
      { collectMetrics o cm nm dm now freq cpuRes m₂ netRes diskRes prev pts
          with memory := none }) ∧
    (∀ n₁ n₂,
      { collectMetrics o cm nm dm now freq cpuRes memRes n₁ diskRes prev pts
          with network := none } =
      { collectMetrics o cm nm dm now freq cpuRes memRes n₂ diskRes prev pts
          with network := none }) ∧
    (∀ d₁ d₂,
      { collectMetrics o cm nm dm now freq cpuRes memRes netRes d₁ prev pts
          with disks := none } =
      { collectMetrics o cm nm dm now freq cpuRes memRes netRes d₂ prev pts
          with disks := none }) ∧
    (∀ e, (collectMetrics o cm nm dm now freq (.error e) memRes netRes diskRes
        prev pts).cpu = none) ∧
    (∀ e, (collectMetrics o cm nm dm now freq cpuRes (.error e) netRes diskRes
        prev pts).memory = none) ∧
    (∀ e, (collectMetrics o cm nm dm now freq cpuRes memRes (.error e) diskRes
        prev pts).network = none) ∧
    (∀ e, (collectMetrics o cm nm dm now freq cpuRes memRes netRes (.error e)
        prev pts).disks = none) ∧
    (o.showCpu = true → cm = true → ∀ v,
      (collectMetrics o cm nm dm now freq (.ok v) memRes netRes diskRes
        prev pts).cpu = some v) ∧
    (o.showMemory = true → ∀ v,
      (collectMetrics o cm nm dm now freq cpuRes (.ok v) netRes diskRes
        prev pts).memory = some v) ∧
    (o.showNetwork = true → nm = true → ∀ v,
      (collectMetrics o cm nm dm now freq cpuRes memRes (.ok v) diskRes
        prev pts).network =
        filterIface o.networkInterface
          (applyNetRates (calculateElapsedSeconds now pts freq) prev.network v)) ∧
    ((o.showDiskSpace || o.showDiskIO) = true → dm = true → ∀ v,
      (collectMetrics o cm nm dm now freq cpuRes memRes netRes (.ok v)
        prev pts).disks =
        some (applyDiskAcc (calculateElapsedSeconds now pts freq) prev.disks v)) := by
  refine ⟨fun c₁ c₂ => rfl, fun m₁ m₂ => rfl, fun n₁ n₂ => rfl, fun d₁ d₂ => rfl,
    ?_, ?_, ?_, ?_, ?_, ?_, ?_, ?_⟩
  · intro e
    cases hb : o.showCpu && cm <;> simp [collectMetrics, hb]
  · intro e
    cases hb : o.showMemory <;> simp [collectMetrics, hb]
  · intro e
    cases hb : o.showNetwork && nm <;> simp [collectMetrics, hb]
  · intro e
    cases hb : (o.showDiskSpace || o.showDiskIO) && dm <;> simp [collectMetrics, hb]
  · intro h1 h2 v
    simp [collectMetrics, h1, h2]
  · intro h1 v
    simp [collectMetrics, h1]
  · intro h1 h2 v
    simp [collectMetrics, h1, h2]
  · intro h1 h2 v
    simp [collectMetrics, h1, h2]

/-- A concrete `CpuStats` value for the C7 witness. -/
def cpuStats0 : CpuStats :=
  { totalUsagePercent := 25, cores := [], averageFrequencyMhz := 2400 }

/-- A concrete `MemoryStats` value for the C7 witness. -/
def memStats0 : MemoryStats :=
  { totalPhysicalBytes := 16, availablePhysicalBytes := 8,
    usedPhysicalBytes := 8, usagePercent := 50,
    totalPageFileBytes := 4, availablePageFileBytes := 2,
    usedPageFileBytes := 2, pageFilePercent := 50 }

/-- The all-families-requested options for the C7 witness. -/
def optsAll : CliOptions :=
  { showCpu := true, showMemory := true, showDiskSpace := true,
    showDiskIO := true, showNetwork := true, showTemp := false,
    networkInterface := [] }

/-- Witness for C7: in a cycle where the CPU fetch raises and the memory
fetch succeeds, the theorem yields cpu = none while memory is still
included (its hypotheses `showMemory`/`showCpu`/monitor-present discharged
at concrete values). -/
theorem collectMetrics_family_isolation_witness :
    (collectMetrics optsAll true true true 100 10 (.error ()) (.ok memStats0)
      (.ok []) (.ok []) {} 0).cpu = none ∧
    (collectMetrics optsAll true true true 100 10 (.error ()) (.ok memStats0)
      (.ok []) (.ok []) {} 0).memory = some memStats0 ∧
    (collectMetrics optsAll true true true 100 10 (.ok cpuStats0)
      (.ok memStats0) (.ok []) (.ok []) {} 0).cpu = some cpuStats0 :=
  ⟨(collectMetrics_family_isolation optsAll true true true 100 10 (.error ())
      (.ok memStats0) (.ok []) (.ok []) {} 0).2.2.2.2.1 (),
   (collectMetrics_family_isolation optsAll true true true 100 10 (.error ())
      (.ok memStats0) (.ok []) (.ok []) {} 0).2.2.2.2.2.2.2.2.2.1 rfl memStats0,
   (collectMetrics_family_isolation optsAll true true true 100 10 (.ok cpuStats0)
      (.ok memStats0) (.ok []) (.ok []) {} 0).2.2.2.2.2.2.2.2.1 rfl rfl cpuStats0⟩

/-! ## Reload of sanitized keys (claim C5)

Helper lemmas: the decimal text written by `save` parses back to the same
value, and the key-splitting of `load` recovers a whitespace-free sanitized
device name exactly, underscores included. -/

/-- The value accumulated by `scanDigits`, without the digit count. -/
def valOf : Nat → Str → Nat
  | acc, [] => acc
  | acc, c :: cs => valOf (acc * 10 + (c.toNat - 48)) cs

theorem digitChar_isDigit (d : Nat) (h : d < 10) :
    isDigitChar (Nat.digitChar d) = true := by
  interval_cases d <;> decide

theorem digitChar_toNat (d : Nat) (h : d < 10) :
    (Nat.digitChar d).toNat - 48 = d := by
  interval_cases d <;> decide

theorem digit_not_space (c : Char) (h : isDigitChar c = true) :
    isSpaceChar c = false := by
  have h1 : c ≠ ' ' := by rintro rfl; revert h; decide
  have h2 : c ≠ '\t' := by rintro rfl; revert h; decide
  have h3 : c ≠ '\n' := by rintro rfl; revert h; decide
  have h4 : c ≠ '\r' := by rintro rfl; revert h; decide
  have h5 : c ≠ '\x0b' := by rintro rfl; revert h; decide
  have h6 : c ≠ '\x0c' := by rintro rfl; revert h; decide
  simp [isSpaceChar, h1, h2, h3, h4, h5, h6]

theorem digit_ne_minus (c : Char) (h : isDigitChar c = true) : c ≠ '-' := by
  rintro rfl; revert h; decide

theorem digit_ne_plus (c : Char) (h : isDigitChar c = true) : c ≠ '+' := by
  rintro rfl; revert h; decide

theorem natToStrGo_digits (fuel : Nat) :
    ∀ n, n < fuel →
      (natToStrGo fuel n).all isDigitChar = true ∧ natToStrGo fuel n ≠ [] := by
  induction fuel with
  | zero => intro n h; omega
  | succ f ih =>
    intro n h
    by_cases h10 : n < 10
    · simp [natToStrGo, h10, digitChar_isDigit n h10]
    · have hdiv : n / 10 < f := by
        have h1 : n / 10 < n := Nat.div_lt_self (by omega) (by omega)
        omega
      obtain ⟨ha, hne⟩ := ih (n / 10) hdiv
      have hm : isDigitChar (Nat.digitChar (n % 10)) = true :=
        digitChar_isDigit (n % 10) (Nat.mod_lt n (by omega))
      constructor
      · simp only [natToStrGo, if_neg h10, List.all_append, Bool.and_eq_true]
        exact ⟨ha, by simp [hm]⟩
      · simp [natToStrGo, if_neg h10]

theorem valOf_append_single (xs : Str) (d : Char) :
    ∀ acc, valOf acc (xs ++ [d]) = (valOf acc xs) * 10 + (d.toNat - 48) := by
  induction xs with
  | nil => intro acc; rfl
  | cons c cs ih => intro acc; exact ih (acc * 10 + (c.toNat - 48))

theorem valOf_natToStrGo (fuel : Nat) :
    ∀ n, n < fuel → valOf 0 (natToStrGo fuel n) = n := by
  induction fuel with
  | zero => intro n h; omega
  | succ f ih =>
    intro n h
    by_cases h10 : n < 10
    · have h2 := digitChar_toNat n h10
      simp only [natToStrGo, if_pos h10]
      show 0 * 10 + ((Nat.digitChar n).toNat - 48) = n
      omega
    · have hdiv : n / 10 < f := by
        have h1 : n / 10 < n := Nat.div_lt_self (by omega) (by omega)
        omega
      simp only [natToStrGo, if_neg h10]
      rw [valOf_append_single, ih (n / 10) hdiv,
        digitChar_toNat (n % 10) (Nat.mod_lt n (by omega))]
      omega

/-- The decimal text of `n` is a nonempty digit string with value `n`. -/
theorem natToStr_spec (n : Nat) :
    (natToStr n).all isDigitChar = true ∧ natToStr n ≠ [] ∧
    valOf 0 (natToStr n) = n := by
  obtain ⟨h1, h2⟩ := natToStrGo_digits (n + 1) n (Nat.lt_succ_self n)
  exact ⟨h1, h2, valOf_natToStrGo (n + 1) n (Nat.lt_succ_self n)⟩

theorem scanDigits_all (xs : Str) :
    ∀ acc nd, xs.all isDigitChar = true →
      scanDigits acc nd xs = (valOf acc xs, nd + xs.length) := by
  induction xs with
  | nil => intro acc nd _; rfl
  | cons c cs ih =>
    intro acc nd h
    simp only [List.all_cons, Bool.and_eq_true] at h
    have hstep : scanDigits acc nd (c :: cs) =
        scanDigits (acc * 10 + (c.toNat - 48)) (nd + 1) cs := by
      show (if isDigitChar c then scanDigits (acc * 10 + (c.toNat - 48)) (nd + 1) cs
            else (acc, nd)) = _
      rw [if_pos h.1]
    rw [hstep, ih _ _ h.2]
    have hv : valOf (acc * 10 + (c.toNat - 48)) cs = valOf acc (c :: cs) := rfl
    rw [hv]
    simp only [Prod.mk.injEq, List.length_cons]
    exact ⟨by trivial, by omega⟩

theorem dropWhile_of_digits (xs : Str) (h : xs.all isDigitChar = true) :
    xs.dropWhile isSpaceChar = xs := by
  cases xs with
  | nil => rfl
  | cons c cs =>
    simp only [List.all_cons, Bool.and_eq_true] at h
    simp [List.dropWhile_cons, digit_not_space c h.1]

/-- `strtoull` (and stream extraction) on a pure digit string below `2^64`
yields exactly its value. -/
theorem parseULL_of_digits (xs : Str) (ha : xs.all isDigitChar = true)
    (hne : xs ≠ []) (hv : valOf 0 xs < 2 ^ 64) :
    parseULL xs = some (valOf 0 xs) := by
  cases xs with
  | nil => exact absurd rfl hne
  | cons c cs =>
    have hall := ha
    simp only [List.all_cons, Bool.and_eq_true] at hall
    unfold parseULL
    rw [dropWhile_of_digits (c :: cs) ha]
    show (if c = '-' then parseULLDigits cs true
          else if c = '+' then parseULLDigits cs false
          else parseULLDigits (c :: cs) false) = some (valOf 0 (c :: cs))
    rw [if_neg (digit_ne_minus c hall.1), if_neg (digit_ne_plus c hall.1)]
    unfold parseULLDigits
    rw [scanDigits_all (c :: cs) 0 0 ha]
    have h2 : ¬ (2 ^ 64 ≤ valOf 0 (c :: cs)) := not_le.mpr hv
    simp [h2]
    simpa using hv

/-- Skipping the single blank that `save` writes between key and value. -/
theorem parseULL_cons_space (xs : Str) : parseULL (' ' :: xs) = parseULL xs := by
  unfold parseULL
  rw [show List.dropWhile isSpaceChar (' ' :: xs) = List.dropWhile isSpaceChar xs from by
    rw [List.dropWhile_cons, if_pos (by decide : isSpaceChar ' ' = true)]]

theorem takeWhile_append_stop (p : Char → Bool) (xs : Str) (y : Char) (ys : Str)
    (hx : ∀ x ∈ xs, p x = true) (hy : p y = false) :
    (xs ++ y :: ys).takeWhile p = xs := by
  induction xs with
  | nil => simp [List.takeWhile_cons, hy]
  | cons c cs ih =>
    have hc : p c = true := hx c (List.mem_cons_self c cs)
    simp only [List.cons_append, List.takeWhile_cons, hc, if_true]
    rw [ih (fun x hxmem => hx x (List.mem_cons_of_mem c hxmem))]

/-- `istream >> key >> value` on a saved line `key ⟨blank⟩ digits`:
the key token and the value are recovered exactly. -/
theorem extractToken_saved_line (key : Str) (rest0 : Str) (hne : key ≠ [])
    (hk : ∀ c ∈ key, isSpaceChar c = false) :
    extractToken (key ++ ' ' :: rest0) = some (key, ' ' :: rest0) := by
  have hdrop : (key ++ ' ' :: rest0).dropWhile isSpaceChar = key ++ ' ' :: rest0 := by
    cases key with
    | nil => exact absurd rfl hne
    | cons c cs =>
      simp only [List.cons_append, List.dropWhile_cons,
        hk c (List.mem_cons_self c cs), Bool.false_eq_true, if_false]
  have htake : (key ++ ' ' :: rest0).takeWhile (fun c => !isSpaceChar c) = key := by
    refine takeWhile_append_stop _ key ' ' rest0 (fun x hx => ?_) (by decide)
    simp [hk x hx]
  unfold extractToken extractTokenGo
  rw [hdrop, htake]
  rw [if_neg (by simp [List.isEmpty_iff, hne])]
  rw [List.drop_left]

theorem rfindIdxAux_append (p : Char → Bool) (xs ys : Str) :
    ∀ (i : Nat) (b : Option Nat),
      rfindIdxAux p (xs ++ ys) i b =
        rfindIdxAux p ys (i + xs.length) (rfindIdxAux p xs i b) := by
  induction xs with
  | nil => intro i b; rfl
  | cons c cs ih =>
    intro i b
    show rfindIdxAux p (cs ++ ys) (i + 1) (if p c then some i else b) =
      rfindIdxAux p ys (i + (c :: cs).length)
        (rfindIdxAux p cs (i + 1) (if p c then some i else b))
    rw [ih]
    congr 1
    simp only [List.length_cons]
    omega

theorem rfindIdxAux_no_hit (p : Char → Bool) (xs : Str)
    (h : ∀ c ∈ xs, p c = false) :
    ∀ (i : Nat) (b : Option Nat), rfindIdxAux p xs i b = b := by
  induction xs with
  | nil => intro i b; rfl
  | cons c cs ih =>
    intro i b
    show rfindIdxAux p cs (i + 1) (if p c then some i else b) = b
    rw [h c (List.mem_cons_self c cs)]
    simp only [Bool.false_eq_true, if_false]
    exact ih (fun x hx => h x (List.mem_cons_of_mem c hx)) (i + 1) b

/-- `key.rfind('_')` on a saved key `⟨prefix⟩⟨name⟩_⟨FIELD⟩` finds exactly
the underscore preceding the FIELD token, provided the FIELD token itself
contains no underscore. -/
theorem rfindIdx_saved_key (prefix1 sn field : Str)
    (hfield : ∀ c ∈ field, decide (c = '_') = false) :
    rfindIdx (fun c => c = '_') ((prefix1 ++ sn) ++ '_' :: field) =
      some (prefix1.length + sn.length) := by
  have hstep : ∀ (j : Nat) (b : Option Nat),
      rfindIdxAux (fun c => c = '_') ('_' :: field) j b = some j := by
    intro j b
    show rfindIdxAux (fun c => c = '_') field (j + 1) (some j) = some j
    exact rfindIdxAux_no_hit _ field hfield (j + 1) (some j)
  unfold rfindIdx
  rw [rfindIdxAux_append, hstep]
  simp [List.length_append]

/-- Processing the saved line `NETWORK_⟨sn⟩_⟨field⟩ ⟨v⟩` recovers the
sanitized name `sn` exactly (underscores intact) and applies the field
update, provided `sn` is nonempty and free of stream whitespace. -/
theorem processLine_saved_net (st1 : List InterfaceStats) (st2 : List DiskStats)
    (sn field : Str) (v : Nat)
    (hsn : sn ≠ []) (hsnws : ∀ c ∈ sn, isSpaceChar c = false)
    (hfws : ∀ c ∈ field, isSpaceChar c = false)
    (hfu : ∀ c ∈ field, decide (c = '_') = false)
    (hv : v < 2 ^ 64) :
    processLine (st1, st2) ((str "NETWORK_" ++ (sn ++ '_' :: field)) ++ ' ' :: natToStr v)
      = (updNet st1 sn field v, st2) := by
  have hkeyne : str "NETWORK_" ++ (sn ++ '_' :: field) ≠ [] := by
    intro h
    have h2 : ('N' :: (str "ETWORK_" ++ (sn ++ '_' :: field)) : Str) = [] := h
    exact List.noConfusion h2
  have hkeyws : ∀ c ∈ str "NETWORK_" ++ (sn ++ '_' :: field),
      isSpaceChar c = false := by
    have hpre : ∀ c ∈ str "NETWORK_", isSpaceChar c = false := by decide
    intro c hc
    rcases List.mem_append.mp hc with hp | hq
    · exact hpre c hp
    · rcases List.mem_append.mp hq with hs | hr
      · exact hsnws c hs
      · rcases List.mem_cons.mp hr with rfl | hf
        · decide
        · exact hfws c hf
  have h1 : ((str "NETWORK_" ++ (sn ++ '_' :: field)) ++ ' ' :: natToStr v).isEmpty
      = false := rfl
  have h2 := extractToken_saved_line (str "NETWORK_" ++ (sn ++ '_' :: field))
    (natToStr v) hkeyne hkeyws
  have h3 : parseULL (' ' :: natToStr v) = some v := by
    obtain ⟨ha, hne, hval⟩ := natToStr_spec v
    rw [parseULL_cons_space, parseULL_of_digits _ ha hne (by rw [hval]; exact hv), hval]
  have h4 : (str "NETWORK_" ++ (sn ++ '_' :: field)).take 8 = str "NETWORK_" := by
    rw [show (8 : Nat) = (str "NETWORK_").length from rfl]
    exact List.take_left _ _
  have h5 : rfindIdx (fun c => c = '_') (str "NETWORK_" ++ (sn ++ '_' :: field)) =
      some (8 + sn.length) := by
    have h := rfindIdx_saved_key (str "NETWORK_") sn field hfu
    rw [List.append_assoc] at h
    exact h
  have h6 : ¬ (8 + sn.length ≤ 8) := by
    have := List.length_pos.mpr hsn
    omega
  have h7 : ((str "NETWORK_" ++ (sn ++ '_' :: field)).drop 8).take
      (8 + sn.length - 8) = sn := by
    rw [show (8 : Nat) = (str "NETWORK_").length from rfl, List.drop_left,
      show (str "NETWORK_").length + sn.length - (str "NETWORK_").length = sn.length
        from by omega]
    exact List.take_left _ _
  have h8 : (str "NETWORK_" ++ (sn ++ '_' :: field)).drop (8 + sn.length + 1)
      = field := by
    have hassoc : str "NETWORK_" ++ (sn ++ '_' :: field) =
        ((str "NETWORK_" ++ sn) ++ ['_']) ++ field := by
      simp [List.append_assoc]
    rw [hassoc,
      show 8 + sn.length + 1 = ((str "NETWORK_" ++ sn) ++ ['_']).length from by
        simp [List.length_append]
        rw [show (str "NETWORK_").length = 8 from rfl]
        omega]
    exact List.drop_left _ _
  simp only [processLine, h1, Bool.false_eq_true, if_false, h2, h3, h4, if_true,
    h5, h7, h8]
  rw [if_neg h6]

/-- Processing the saved line `DISK_⟨sd⟩_⟨field⟩ ⟨v⟩` recovers the sanitized
device name `sd` exactly and applies the field update, under the same
side conditions as the network case. -/
theorem processLine_saved_disk (st1 : List InterfaceStats) (st2 : List DiskStats)
    (sd field : Str) (v : Nat)
    (hsd : sd ≠ []) (hsdws : ∀ c ∈ sd, isSpaceChar c = false)
    (hfws : ∀ c ∈ field, isSpaceChar c = false)
    (hfu : ∀ c ∈ field, decide (c = '_') = false)
    (hv : v < 2 ^ 64) :
    processLine (st1, st2) ((str "DISK_" ++ (sd ++ '_' :: field)) ++ ' ' :: natToStr v)
      = (st1, updDisk st2 sd field v) := by
  have hkeyne : str "DISK_" ++ (sd ++ '_' :: field) ≠ [] := by
    intro h
    have h2 : ('D' :: (str "ISK_" ++ (sd ++ '_' :: field)) : Str) = [] := h
    exact List.noConfusion h2
  have hkeyws : ∀ c ∈ str "DISK_" ++ (sd ++ '_' :: field),
      isSpaceChar c = false := by
    have hpre : ∀ c ∈ str "DISK_", isSpaceChar c = false := by decide
    intro c hc
    rcases List.mem_append.mp hc with hp | hq
    · exact hpre c hp
    · rcases List.mem_append.mp hq with hs | hr
      · exact hsdws c hs
      · rcases List.mem_cons.mp hr with rfl | hf
        · decide
        · exact hfws c hf
  have h1 : ((str "DISK_" ++ (sd ++ '_' :: field)) ++ ' ' :: natToStr v).isEmpty
      = false := rfl
  have h2 := extractToken_saved_line (str "DISK_" ++ (sd ++ '_' :: field))
    (natToStr v) hkeyne hkeyws
  have h3 : parseULL (' ' :: natToStr v) = some v := by
    obtain ⟨ha, hne, hval⟩ := natToStr_spec v
    rw [parseULL_cons_space, parseULL_of_digits _ ha hne (by rw [hval]; exact hv),
      hval]
  have h4 : ¬ ((str "DISK_" ++ (sd ++ '_' :: field)).take 8 = str "NETWORK_") := by
    intro h
    have h2d : 'D' :: ('I' :: 'S' :: 'K' :: '_' :: (sd ++ '_' :: field).take 3)
        = 'N' :: str "ETWORK_" := h
    injection h2d with hD _
    exact absurd hD (by decide)
  have h4b : (str "DISK_" ++ (sd ++ '_' :: field)).take 5 = str "DISK_" := by
    rw [show (5 : Nat) = (str "DISK_").length from rfl]
    exact List.take_left _ _
  have h5 : rfindIdx (fun c => c = '_') (str "DISK_" ++ (sd ++ '_' :: field)) =
      some (5 + sd.length) := by
    have h := rfindIdx_saved_key (str "DISK_") sd field hfu
    rw [List.append_assoc] at h
    exact h
  have h6 : ¬ (5 + sd.length ≤ 5) := by
    have := List.length_pos.mpr hsd
    omega
  have h7 : ((str "DISK_" ++ (sd ++ '_' :: field)).drop 5).take
      (5 + sd.length - 5) = sd := by
    rw [show (5 : Nat) = (str "DISK_").length from rfl, List.drop_left,
      show (str "DISK_").length + sd.length - (str "DISK_").length = sd.length
        from by omega]
    exact List.take_left _ _
  have h8 : (str "DISK_" ++ (sd ++ '_' :: field)).drop (5 + sd.length + 1)
      = field := by
    have hassoc : str "DISK_" ++ (sd ++ '_' :: field) =
        ((str "DISK_" ++ sd) ++ ['_']) ++ field := by
      simp [List.append_assoc]
    rw [hassoc,
      show 5 + sd.length + 1 = ((str "DISK_" ++ sd) ++ ['_']).length from by
        simp [List.length_append]
        rw [show (str "DISK_").length = 5 from rfl]
        omega]
    exact List.drop_left _ _
  simp only [processLine, h1, Bool.false_eq_true, if_false, h2, h3, h4, h4b,
    if_true, h5, h7, h8]
  rw [if_neg h6]

/-- C5 (amended).  Part 1: the key sanitization applied before persistence
replaces each tab, CR and LF with the placeholder `_` and leaves every other
character (spaces, colons, quotes, underscores …) unchanged, position by
position.  Part 2: for a snapshot holding one interface and one disk whose
sanitized names are nonempty and contain no stream whitespace (no space,
vertical tab or form feed — names containing a space are lost on reload,
the round-trip defect of the `iss >> key >> value` parse), save-then-load
reconstructs each sanitized name exactly, with every remaining underscore —
the key format's field delimiter — intact, together with its counters. -/
theorem sanitizeKey_placeholder_and_reload :
    (∀ (key : Str) (i : Nat),
      (sanitizeKey key)[i]? =
        (key[i]?).map (fun c => if c = '\t' || c = '\n' || c = '\r' then '_' else c)) ∧
    (∀ (iface : InterfaceStats) (disk : DiskStats) (ts : Nat),
      iface.name ≠ [] → disk.deviceName ≠ [] →
      (∀ c ∈ sanitizeKey iface.name, isSpaceChar c = false) →
      (∀ c ∈ sanitizeKey disk.deviceName, isSpaceChar c = false) →
      iface.totalInOctets < 2 ^ 64 → iface.totalOutOctets < 2 ^ 64 →
      disk.totalBytesRead < 2 ^ 64 → disk.totalBytesWritten < 2 ^ 64 →
      ts < 2 ^ 64 →
      load (some (saveLines { timestamp := ts, network := some [iface],
                              disks := some [disk] })) =
        some { timestamp := ts,
               network := some [{ mkIface (sanitizeKey iface.name) with
                                   totalInOctets := iface.totalInOctets,
                                   totalOutOctets := iface.totalOutOctets }],
               disks := some [{ mkDisk (sanitizeKey disk.deviceName) with
                                 totalBytesRead := disk.totalBytesRead,
                                 totalBytesWritten := disk.totalBytesWritten }] }) := by
  constructor
  · intro key i
    simp [sanitizeKey, List.getElem?_map]
  · intro iface disk ts hn hd hnws hdws hvin hvout hvr hvw hts
    have hsn : sanitizeKey iface.name ≠ [] := by
      simpa [sanitizeKey] using hn
    have hsd : sanitizeKey disk.deviceName ≠ [] := by
      simpa [sanitizeKey] using hd
    set sn := sanitizeKey iface.name with hsndef
    set sd := sanitizeKey disk.deviceName with hsddef
    have hsave : saveLines { timestamp := ts, network := some [iface],
                             disks := some [disk] } =
        [str "VERSION 1.0", str "TIMESTAMP " ++ natToStr ts,
         (str "NETWORK_" ++ (sn ++ '_' :: str "IN")) ++ ' ' :: natToStr iface.totalInOctets,
         (str "NETWORK_" ++ (sn ++ '_' :: str "OUT")) ++ ' ' :: natToStr iface.totalOutOctets,
         (str "DISK_" ++ (sd ++ '_' :: str "READ")) ++ ' ' :: natToStr disk.totalBytesRead,
         (str "DISK_" ++ (sd ++ '_' :: str "WRITE")) ++ ' ' :: natToStr disk.totalBytesWritten] := by
      simp [saveLines, netLines, diskLines, List.append_assoc]
      exact ⟨rfl, rfl, rfl, rfl⟩
    have ht1 : (str "TIMESTAMP " ++ natToStr ts).take 10 = str "TIMESTAMP " := by
      rw [show (10 : Nat) = (str "TIMESTAMP ").length from rfl]
      exact List.take_left _ _
    have ht2 : (str "TIMESTAMP " ++ natToStr ts).drop 10 = natToStr ts := by
      rw [show (10 : Nat) = (str "TIMESTAMP ").length from rfl]
      exact List.drop_left _ _
    have ht3 : parseULL (natToStr ts) = some ts := by
      obtain ⟨ha, hne, hval⟩ := natToStr_spec ts
      rw [parseULL_of_digits _ ha hne (by rw [hval]; exact hts), hval]
    have hfold : List.foldl processLine ([], [])
        [(str "NETWORK_" ++ (sn ++ '_' :: str "IN")) ++ ' ' :: natToStr iface.totalInOctets,
         (str "NETWORK_" ++ (sn ++ '_' :: str "OUT")) ++ ' ' :: natToStr iface.totalOutOctets,
         (str "DISK_" ++ (sd ++ '_' :: str "READ")) ++ ' ' :: natToStr disk.totalBytesRead,
         (str "DISK_" ++ (sd ++ '_' :: str "WRITE")) ++ ' ' :: natToStr disk.totalBytesWritten] =
        ([{ mkIface sn with totalInOctets := iface.totalInOctets,
                            totalOutOctets := iface.totalOutOctets }],
         [{ mkDisk sd with totalBytesRead := disk.totalBytesRead,
                           totalBytesWritten := disk.totalBytesWritten }]) := by
      have s1 := processLine_saved_net [] [] sn (str "IN")
        iface.totalInOctets hsn hnws (by decide) (by decide) hvin
      have s2 := processLine_saved_net
        [{ mkIface sn with totalInOctets := iface.totalInOctets }] []
        sn (str "OUT") iface.totalOutOctets hsn hnws (by decide) (by decide) hvout
      have s3 := processLine_saved_disk
        [{ mkIface sn with totalInOctets := iface.totalInOctets,
                           totalOutOctets := iface.totalOutOctets }] []
        sd (str "READ") disk.totalBytesRead hsd hdws (by decide) (by decide) hvr
      have s4 := processLine_saved_disk
        [{ mkIface sn with totalInOctets := iface.totalInOctets,
                           totalOutOctets := iface.totalOutOctets }]
        [{ mkDisk sd with totalBytesRead := disk.totalBytesRead }]
        sd (str "WRITE") disk.totalBytesWritten hsd hdws (by decide) (by decide) hvw
      have e1 : updNet [] sn (str "IN") iface.totalInOctets =
          [{ mkIface sn with totalInOctets := iface.totalInOctets }] := rfl
      have e2 : updNet [{ mkIface sn with totalInOctets := iface.totalInOctets }]
          sn (str "OUT") iface.totalOutOctets =
          [{ mkIface sn with totalInOctets := iface.totalInOctets,
                             totalOutOctets := iface.totalOutOctets }] := by
        show (if ({ mkIface sn with
                    totalInOctets := iface.totalInOctets } : InterfaceStats).name = sn
              then setNetField { mkIface sn with totalInOctets := iface.totalInOctets }
                     (str "OUT") iface.totalOutOctets :: []
              else _) = _
        rw [if_pos (show ({ mkIface sn with
              totalInOctets := iface.totalInOctets } : InterfaceStats).name = sn from rfl)]
        rfl
      have e3 : updDisk [] sd (str "READ") disk.totalBytesRead =
          [{ mkDisk sd with totalBytesRead := disk.totalBytesRead }] := rfl
      have e4 : updDisk [{ mkDisk sd with totalBytesRead := disk.totalBytesRead }]
          sd (str "WRITE") disk.totalBytesWritten =
          [{ mkDisk sd with totalBytesRead := disk.totalBytesRead,
                            totalBytesWritten := disk.totalBytesWritten }] := by
        show (if ({ mkDisk sd with
                    totalBytesRead := disk.totalBytesRead } : DiskStats).deviceName = sd
              then setDiskField { mkDisk sd with totalBytesRead := disk.totalBytesRead }
                     (str "WRITE") disk.totalBytesWritten :: []
              else _) = _
        rw [if_pos (show ({ mkDisk sd with
              totalBytesRead := disk.totalBytesRead } : DiskStats).deviceName = sd from rfl)]
        rfl
      rw [List.foldl_cons, s1, e1, List.foldl_cons]
      rw [s2, e2, List.foldl_cons, s3, e3, List.foldl_cons, s4, e4,
        List.foldl_nil]
    rw [hsave, load_some_eq]
    simp only [loadLines, show ((str "VERSION 1.0").take 8 = str "VERSION ")
        from by decide,
      show validateVersion ((str "VERSION 1.0").drop 8) = true from by decide,
      ht1, ht2, ht3, hfold]
    simp

/-- C5: counterexample to the claim as stated.  For the device name `a b`
(a space, no tab/CR/LF) the sanitization indeed leaves every character
unchanged — but the sanitized name written by `save` is then NOT
reconstructed on reload: the `iss >> key >> value` parse splits the key at
the space, fails on `b_IN` as a number, skips both counter lines, and the
loaded snapshot has no network entry at all. -/
theorem saved_space_name_not_reconstructed :
    sanitizeKey (str "a b") = str "a b" ∧
    load (some (saveLines { timestamp := 7, network := some [mkIface (str "a b")],
                            disks := none })) =
      some { timestamp := 7, network := none, disks := none } := by decide

/-- Witness for C5: the amended theorem applied to the interface `eth_0`
(an underscore — the format's field delimiter — in the name) and the disk
`C:` (a colon), all hypotheses discharged concretely; both names come back
verbatim, the underscore intact. -/
theorem sanitizeKey_placeholder_and_reload_witness :
    load (some (saveLines
        { timestamp := 5,
          network := some [{ mkIface (str "eth_0") with
                              totalInOctets := 12,
                              totalOutOctets := 34 }],
          disks := some [{ mkDisk (str "C:") with
                            totalBytesRead := 56,
                            totalBytesWritten := 78 }] })) =
      some { timestamp := 5,
             network := some [{ mkIface (str "eth_0") with
                                 totalInOctets := 12,
                                 totalOutOctets := 34 }],
             disks := some [{ mkDisk (str "C:") with
                               totalBytesRead := 56,
                               totalBytesWritten := 78 }] } := by
  have h := sanitizeKey_placeholder_and_reload.2
    { mkIface (str "eth_0") with totalInOctets := 12, totalOutOctets := 34 }
    { mkDisk (str "C:") with totalBytesRead := 56, totalBytesWritten := 78 }
    5 (by decide) (by decide) (by decide) (by decide) (by decide) (by decide)
    (by decide) (by decide) (by decide)
  exact h

end WinHKMonProof
